import Mathlib

/-!
Shallow embedding of the restaurant-manager backend (src/main.py) and proofs
of its specified properties.

Modelling conventions:
* Database tables are Lean lists of rows; `query(...).filter(cond).first()` is
  `List.find?`, `.all()` is `List.filter`.
* SQL `DateTime` values are ISO-8601 strings ("YYYY-MM-DD HH:MM:SS"); the code
  compares them directly against caller-supplied strings, and ISO strings
  compare chronologically under the lexicographic `String` order.
  `func.date(ts)` is the first 10 characters of the string.
* JWT tokens are records carrying the payload claims plus the secret they were
  signed with; `jwt.decode` succeeds exactly when the verifier's secret matches
  and the expiry has not elapsed (PyJWT raises `ExpiredSignatureError` when
  `exp < now`).  Python serialises the user id into the "sub" claim with
  `str()` and parses it back with `int()`; that roundtrip is the identity on
  naturals and the model carries the id directly.
* Wall-clock time is an explicit `Nat` parameter (seconds); `datetime.utcnow()`
  at issuance/verification time is the `now` argument, and the current date
  used by `orders_daily` is the `today` argument.
* Pydantic bodies parsed with `exclude_unset=True` become structures whose
  every updatable field is an `Option` recording present-or-absent.
-/

namespace RestMgr

/-- `manager_user` table row (src/main.py). -/
structure ManagerUser where
  id : Nat
  username : String
  password_hash : String
  role : String
deriving DecidableEq, Repr

/-- `menu_category` table row. -/
structure MenuCategory where
  id : Nat
  name_pl : String
  name_en : String
  image_url : Option String
deriving DecidableEq, Repr

/-- `menu_item` table row. -/
structure MenuItem where
  id : Nat
  category_id : Nat
  name_pl : String
  name_en : String
  price_cents : Int
  image_url : Option String
  is_available : Bool
deriving DecidableEq, Repr

/-- `orders` table row. -/
structure Order where
  id : Nat
  order_number : Int
  status : String
  type : String
  created_at : String
  ready_at : Option String
  language : String
deriving DecidableEq, Repr

/-- `order_item` table row. -/
structure OrderItem where
  id : Nat
  order_id : Nat
  menu_item_id : Nat
  quantity : Int
deriving DecidableEq, Repr

/-- `order_event_log` table row. -/
structure OrderEventLog where
  id : Nat
  order_id : Nat
  event_type : String
  terminal_name : String
  timestamp : String
  new_status : String
deriving DecidableEq, Repr

/-- The relational store: the six tables of the schema. -/
structure Db where
  users : List ManagerUser
  categories : List MenuCategory
  items : List MenuItem
  orders : List Order
  order_items : List OrderItem
  events : List OrderEventLog
deriving DecidableEq, Repr

/-- An `HTTPException(status_code, detail)`.  `raise HTTPException(404)` uses
FastAPI's default phrase "Not Found". -/
structure HErr where
  status_code : Nat
  detail : String
deriving DecidableEq, Repr

/-- A signed JWT as produced by `create_access_token` and consumed by
`jwt.decode`: the payload claims ("sub" = user id, "role", "exp") together
with the secret it was signed with. -/
structure Token where
  sub : Option Nat
  role : String
  exp : Nat
  sig : String
deriving DecidableEq, Repr

/-- `create_access_token(data, expires_delta=timedelta(hours=12))`: copies the
payload and sets `exp = utcnow() + expires_delta` (12 h = 43200 s by default,
which is the only way `login` calls it). -/
def create_access_token (secret : String) (now : Nat) (sub : Option Nat)
    (role : String) : Token :=
  { sub := sub, role := role, exp := now + 12 * 3600, sig := secret }

/-- `jwt.decode(token, JWT_SECRET, algorithms=[...])`: succeeds iff the token
was signed with the verifier's secret and the expiry has not elapsed
(PyJWT rejects exactly when `exp < now`). -/
def jwt_decode (secret : String) (now : Nat) (t : Token) : Option Token :=
  if t.sig = secret ∧ now ≤ t.exp then some t else none

/-- `get_current_user`: decodes the bearer token, reads the "sub" claim,
and loads the referenced `ManagerUser`.  Every failure inside the `try`
block — including the two `HTTPException`s raised there — is caught by the
bare `except Exception` and surfaces as `401 "Invalid token"`. -/
def get_current_user (secret : String) (now : Nat) (db : Db) (t : Token) :
    Except HErr ManagerUser :=
  match jwt_decode secret now t with
  | none => .error ⟨401, "Invalid token"⟩
  | some payload =>
    match payload.sub with
    | none => .error ⟨401, "Invalid token"⟩
    | some uid =>
      match db.users.find? (fun u => u.id == uid) with
      | none => .error ⟨401, "Invalid token"⟩
      | some u => .ok u

/-- `POST /auth/login`: looks the user up by username, compares the stored
credential with the supplied password (plaintext comparison in the source),
and on success issues a token whose "sub" is the user's id.  Both failure
causes raise the same `HTTPException(400, "Invalid credentials")`. -/
def login (secret : String) (now : Nat) (db : Db) (username password : String) :
    Except HErr Token :=
  match db.users.find? (fun u => u.username == username) with
  | none => .error ⟨400, "Invalid credentials"⟩
  | some user =>
    if user.password_hash = password then
      .ok (create_access_token secret now (some user.id) user.role)
    else
      .error ⟨400, "Invalid credentials"⟩

/-! ### Menu management

Request bodies are parsed by pydantic and then read with
`dict(exclude_unset=True)`: a field appears in the dict exactly when the
caller supplied it.  Present-or-absent is an outer `Option`; the nullable
`image_url` column keeps its inner `Option`. -/

/-- `MenuCategorySchema` body as seen through `exclude_unset`. -/
structure MenuCategoryBody where
  id : Option Nat
  name_pl : Option String
  name_en : Option String
  image_url : Option (Option String)
deriving DecidableEq, Repr

/-- `MenuItemSchema` body as seen through `exclude_unset`. -/
structure MenuItemBody where
  id : Option Nat
  category_id : Option Nat
  name_pl : Option String
  name_en : Option String
  price_cents : Option Int
  image_url : Option (Option String)
  is_available : Option Bool
deriving DecidableEq, Repr

/-- The `for k, v in upd.dict(exclude_unset=True).items(): setattr(obj, k, v)`
loop on a category row: supplied fields overwrite, absent fields keep the
row's prior value. -/
def setCategoryFields (c : MenuCategory) (p : MenuCategoryBody) : MenuCategory :=
  { id := p.id.getD c.id
    name_pl := p.name_pl.getD c.name_pl
    name_en := p.name_en.getD c.name_en
    image_url := p.image_url.getD c.image_url }

/-- The `setattr` loop on a menu-item row. -/
def setItemFields (m : MenuItem) (p : MenuItemBody) : MenuItem :=
  { id := p.id.getD m.id
    category_id := p.category_id.getD m.category_id
    name_pl := p.name_pl.getD m.name_pl
    name_en := p.name_en.getD m.name_en
    price_cents := p.price_cents.getD m.price_cents
    image_url := p.image_url.getD m.image_url
    is_available := p.is_available.getD m.is_available }

/-- Mutating the row object found by `.first()` and committing: the first row
passing the filter is replaced in place, every other row is untouched. -/
def updateFirst {α : Type} (test : α → Bool) (f : α → α) : List α → List α
  | [] => []
  | x :: t => if test x then f x :: t else x :: updateFirst test f t

/-- In-place update of the first category with the given id. -/
def updateFirstCategory (l : List MenuCategory) (i : Nat) (p : MenuCategoryBody) :
    List MenuCategory :=
  updateFirst (fun c => c.id == i) (fun c => setCategoryFields c p) l

/-- In-place update of the first menu item with the given id. -/
def updateFirstItem (l : List MenuItem) (i : Nat) (p : MenuItemBody) :
    List MenuItem :=
  updateFirst (fun m => m.id == i) (fun m => setItemFields m p) l

/-- Autoincrement primary key: one more than the largest id in the table. -/
def nextId (ids : List Nat) : Nat := ids.foldr max 0 + 1

/-- `POST /menu/categories`: builds a row from the supplied fields (unset
columns take their column defaults: autoincrement id, NULL image) and
inserts it.  No validation beyond pydantic's. -/
def add_category (db : Db) (p : MenuCategoryBody) :
    (Except HErr MenuCategory) × Db :=
  let obj : MenuCategory :=
    { id := p.id.getD (nextId (db.categories.map (fun c => c.id)))
      name_pl := (p.name_pl.getD "")
      name_en := (p.name_en.getD "")
      image_url := p.image_url.getD none }
  (.ok obj, { db with categories := db.categories ++ [obj] })

/-- `POST /menu/items`: builds a row from the supplied fields (unset columns
take their defaults: autoincrement id, NULL image, `is_available = True`)
and inserts it.  Notably, the handler never checks that `category_id`
references an existing `menu_category` row. -/
def add_menu_item (db : Db) (p : MenuItemBody) :
    (Except HErr MenuItem) × Db :=
  let obj : MenuItem :=
    { id := p.id.getD (nextId (db.items.map (fun m => m.id)))
      category_id := p.category_id.getD 0
      name_pl := (p.name_pl.getD "")
      name_en := (p.name_en.getD "")
      price_cents := p.price_cents.getD 0
      image_url := p.image_url.getD none
      is_available := p.is_available.getD true }
  (.ok obj, { db with items := db.items ++ [obj] })

/-- `PUT /menu/categories/{id}`: 404 if no row has the id, otherwise the
`setattr` loop over the supplied fields, committed in place. -/
def update_category (db : Db) (i : Nat) (p : MenuCategoryBody) :
    (Except HErr MenuCategory) × Db :=
  match db.categories.find? (fun c => c.id == i) with
  | none => (.error ⟨404, "Not Found"⟩, db)
  | some c =>
    (.ok (setCategoryFields c p),
     { db with categories := updateFirstCategory db.categories i p })

/-- `PUT /menu/items/{id}`: 404 if no row has the id, otherwise the `setattr`
loop over the supplied fields, committed in place. -/
def update_menu_item (db : Db) (i : Nat) (p : MenuItemBody) :
    (Except HErr MenuItem) × Db :=
  match db.items.find? (fun m => m.id == i) with
  | none => (.error ⟨404, "Not Found"⟩, db)
  | some m =>
    (.ok (setItemFields m p),
     { db with items := updateFirstItem db.items i p })

/-- `DELETE /menu/categories/{id}`. -/
def delete_category (db : Db) (i : Nat) : (Except HErr Unit) × Db :=
  match db.categories.find? (fun c => c.id == i) with
  | none => (.error ⟨404, "Not Found"⟩, db)
  | some c =>
    (.ok (), { db with categories := db.categories.erase c })

/-- `DELETE /menu/items/{id}`. -/
def delete_menu_item (db : Db) (i : Nat) : (Except HErr Unit) × Db :=
  match db.items.find? (fun m => m.id == i) with
  | none => (.error ⟨404, "Not Found"⟩, db)
  | some m =>
    (.ok (), { db with items := db.items.erase m })

/-- `POST /menu/items/{id}/block?is_available=...`. -/
def block_menu_item (db : Db) (i : Nat) (avail : Bool) :
    (Except HErr Bool) × Db :=
  match db.items.find? (fun m => m.id == i) with
  | none => (.error ⟨404, "Not Found"⟩, db)
  | some _ =>
    let p : MenuItemBody :=
      { id := none, category_id := none, name_pl := none, name_en := none,
        price_cents := none, image_url := none, is_available := some avail }
    (.ok avail, { db with items := updateFirstItem db.items i p })

/-! ### Order reporting -/

/-- Lexicographic comparison of character lists by code point. -/
def charListLe : List Char → List Char → Bool
  | [], _ => true
  | _ :: _, [] => false
  | a :: as, b :: bs =>
    if a.toNat < b.toNat then true
    else if b.toNat < a.toNat then false
    else charListLe as bs

/-- The SQL `<=` on ISO-8601 timestamp strings: lexicographic comparison,
which coincides with chronological order for such strings. -/
def strLe (a b : String) : Bool := charListLe a.data b.data

/-- Python truthiness of an `Optional[str]` query parameter: `if status:` is
false for both `None` and `""`. -/
def truthy (s : Option String) : Bool :=
  match s with
  | none => false
  | some s => s ≠ ""

/-- `GET /orders?status=&date_from=&date_to=`: each filter is applied only
when its parameter is truthy (supplied and non-empty). -/
def get_orders (db : Db) (status date_from date_to : Option String) :
    List Order :=
  let q := db.orders
  let q := match status with
           | some s => if s ≠ "" then q.filter (fun o => o.status == s) else q
           | none => q
  let q := match date_from with
           | some s => if s ≠ "" then q.filter (fun o => strLe s o.created_at) else q
           | none => q
  let q := match date_to with
           | some s => if s ≠ "" then q.filter (fun o => strLe o.created_at s) else q
           | none => q
  q

/-- Response line item: the `OrderItemSchema` built in `get_order_details`,
with the menu item's Polish name resolved at query time. -/
structure OrderItemView where
  id : Nat
  menu_item_id : Nat
  name : String
  quantity : Int
deriving DecidableEq, Repr

/-- Response event: `OrderEventSchema` (drops the `order_id` column). -/
structure OrderEventView where
  id : Nat
  event_type : String
  terminal_name : String
  timestamp : String
  new_status : String
deriving DecidableEq, Repr

def eventView (e : OrderEventLog) : OrderEventView :=
  { id := e.id, event_type := e.event_type, terminal_name := e.terminal_name,
    timestamp := e.timestamp, new_status := e.new_status }

/-- `OrderDetailsSchema`: the order row plus resolved line items and events. -/
structure OrderDetails where
  order : Order
  items : List OrderItemView
  events : List OrderEventView
deriving DecidableEq, Repr

/-- The `OrderItem ⋈ MenuItem` inner join restricted to one order: every
pair with `OrderItem.menu_item_id = MenuItem.id`.  SQL specifies no row
order; the model iterates the line items and, for each, the matching menu
items. -/
def orderJoinRows (db : Db) (oid : Nat) : List (OrderItem × MenuItem) :=
  (db.order_items.filter (fun oi => oi.order_id == oid)).flatMap
    (fun oi => (db.items.filter (fun mi => mi.id == oi.menu_item_id)).map
      (fun mi => (oi, mi)))

/-- `GET /orders/{order_id}`: 404 if the order does not exist; otherwise the
order row, the joined line items with the menu item's `name_pl`, and every
`order_event_log` row of the order. -/
def get_order_details (db : Db) (oid : Nat) : Except HErr OrderDetails :=
  match db.orders.find? (fun o => o.id == oid) with
  | none => .error ⟨404, "Not Found"⟩
  | some o =>
    .ok { order := o
          items := (orderJoinRows db oid).map (fun r =>
            { id := r.1.id, menu_item_id := r.1.menu_item_id,
              name := r.2.name_pl, quantity := r.1.quantity })
          events := (db.events.filter (fun e => e.order_id == oid)).map eventView }

/-- `GET /stats/orders/daily?date=`: `day = date or utcnow().date()` (Python
`or`, so `""` also falls back to the current date); counts "ready" events
whose timestamp's date component equals `day`, grouped by terminal name.
Group keys appear in first-occurrence order (SQL specifies none). -/
def orders_daily (db : Db) (date : Option String) (today : String) :
    List (String × Nat) :=
  let day := match date with
             | some s => if s ≠ "" then s else today
             | none => today
  let rows := db.events.filter
    (fun e => e.event_type == "ready" && e.timestamp.take 10 == day)
  let terminals := rows.foldl
    (fun acc e => if e.terminal_name ∈ acc then acc else acc ++ [e.terminal_name]) []
  terminals.map (fun t =>
    (t, (rows.filter (fun e => e.terminal_name == t)).length))

/-- One row of the `GET /stats/menu-items/top` response. -/
structure TopItemEntry where
  menu_item_id : Nat
  name : String
  sold_count : Int
deriving DecidableEq, Repr

/-- The join rows contributed by one line item: its matching menu items
paired with its matching orders. -/
def salesRowsOf (db : Db) (oi : OrderItem) : List (MenuItem × OrderItem × Order) :=
  (db.items.filter (fun mi => mi.id == oi.menu_item_id)).flatMap (fun mi =>
    (db.orders.filter (fun o => o.id == oi.order_id)).map (fun o => (mi, oi, o)))

/-- The three-way inner join `MenuItem ⋈ OrderItem ⋈ Order` of the top-items
query: every triple with `MenuItem.id = OrderItem.menu_item_id` and
`Order.id = OrderItem.order_id`.  SQL specifies no row order; the model
iterates the line items and pairs each with its matching rows. -/
def salesJoinRows (db : Db) : List (MenuItem × OrderItem × Order) :=
  db.order_items.flatMap (salesRowsOf db)

/-- The two `q.filter(Order.created_at >= ...)` / `<= ...` stages, each
applied only when its parameter is truthy. -/
def rangeRowsFrom (rows : List (MenuItem × OrderItem × Order))
    (date_from date_to : Option String) : List (MenuItem × OrderItem × Order) :=
  let rows : List (MenuItem × OrderItem × Order) :=
    match date_from with
    | some s => if s ≠ "" then rows.filter (fun r => strLe s r.2.2.created_at) else rows
    | none => rows
  match date_to with
  | some s => if s ≠ "" then rows.filter (fun r => strLe r.2.2.created_at s) else rows
  | none => rows

/-- The joined-and-range-filtered row set of the top-items query. -/
def topRows (db : Db) (date_from date_to : Option String) :
    List (MenuItem × OrderItem × Order) :=
  rangeRowsFrom (salesJoinRows db) date_from date_to

/-- The `GROUP BY (MenuItem.id, MenuItem.name_pl)` keys, in first-occurrence
order (SQL specifies none). -/
def topKeys (rows : List (MenuItem × OrderItem × Order)) : List (Nat × String) :=
  rows.foldl
    (fun acc r => if (r.1.id, r.1.name_pl) ∈ acc then acc
                  else acc ++ [(r.1.id, r.1.name_pl)]) []

/-- One aggregated `(menu_item_id, name, sold_count)` row per group key, the
sum taken over the group's rows. -/
def topAgg (rows : List (MenuItem × OrderItem × Order)) : List TopItemEntry :=
  (topKeys rows).map (fun k =>
    ({ menu_item_id := k.1, name := k.2,
       sold_count := ((rows.filter (fun r => r.1.id == k.1 && r.1.name_pl == k.2)).map
         (fun r => r.2.1.quantity)).sum } : TopItemEntry))

/-- `ORDER BY sum DESC`: descending comparison on the aggregated sums. -/
def topLe (a b : TopItemEntry) : Prop := b.sold_count ≤ a.sold_count

instance : DecidableRel topLe := fun _ _ => Int.decLe _ _

instance : IsTotal TopItemEntry topLe := ⟨fun _ _ => Int.le_total _ _⟩

instance : IsTrans TopItemEntry topLe :=
  ⟨fun _ _ _ hab hbc => Int.le_trans hbc hab⟩

/-- `GET /stats/menu-items/top?date_from=&date_to=`: joins, filters the
order's `created_at` by the truthy-supplied bounds, groups by
`(MenuItem.id, MenuItem.name_pl)`, sums `OrderItem.quantity` per group,
orders by the sum descending and keeps the first 10.  SQL leaves the order
of tied sums unspecified; the model sorts with a stable insertion sort. -/
def top_menu_items (db : Db) (date_from date_to : Option String) :
    List TopItemEntry :=
  ((topAgg (topRows db date_from date_to)).insertionSort topLe).take 10

/-! ### API surface

One constructor per route of the FastAPI app, carrying the route's
parameters and parsed body. -/

inductive Req where
  | login (username password : String)
  | me
  | getCategories
  | addCategory (body : MenuCategoryBody)
  | updateCategory (id : Nat) (body : MenuCategoryBody)
  | deleteCategory (id : Nat)
  | getMenuItems
  | addMenuItem (body : MenuItemBody)
  | updateMenuItem (id : Nat) (body : MenuItemBody)
  | deleteMenuItem (id : Nat)
  | blockMenuItem (id : Nat) (avail : Bool)
  | getOrders (status date_from date_to : Option String)
  | getOrderDetails (order_id : Nat)
  | ordersDaily (date : Option String)
  | topMenuItems (date_from date_to : Option String)
  | testDb
  | helloDebug
  | debugSecret
deriving DecidableEq, Repr

/-- Serialized response bodies, one shape per route. -/
inductive Resp where
  | token (t : Token)
  | user (id : Nat) (username : String) (roles : List String)
  | categories (l : List MenuCategory)
  | category (c : MenuCategory)
  | menuItems (l : List MenuItem)
  | menuItem (m : MenuItem)
  | emptyObj
  | availability (b : Bool)
  | orders (l : List Order)
  | orderDetails (d : OrderDetails)
  | terminalStats (l : List (String × Nat))
  | topItems (l : List TopItemEntry)
  | dbOk
  | msg (s : String)
  | secretValue (s : String)
deriving DecidableEq, Repr

/-- Which routes declare the `Depends(get_current_user)` dependency in the
source: every route except `POST /auth/login`, `GET /test-db`,
`GET /hello-debug` and `GET /debug-secret`. -/
def requiresAuth : Req → Bool
  | .login _ _ => false
  | .testDb => false
  | .helloDebug => false
  | .debugSecret => false
  | _ => true

/-- The `Depends(get_current_user)` guard: a missing `Authorization` header is
rejected by `OAuth2PasswordBearer` with `401 "Not authenticated"` before the
handler runs; a presented token goes through `get_current_user`.  Only when
a user resolves does the business handler `k` run. -/
def withAuth (secret : String) (now : Nat) (db : Db) (auth : Option Token)
    (k : ManagerUser → (Except HErr Resp) × Db) : (Except HErr Resp) × Db :=
  match auth with
  | none => (.error ⟨401, "Not authenticated"⟩, db)
  | some t =>
    match get_current_user secret now db t with
    | .error e => (.error e, db)
    | .ok u => k u

/-- The FastAPI app: routes a parsed request to its handler.  `secret` is
`JWT_SECRET`, `now` the current time, `today` the current date string, `auth`
the bearer token of the `Authorization` header (if any). -/
def handle (secret : String) (now : Nat) (today : String) (db : Db)
    (auth : Option Token) : Req → (Except HErr Resp) × Db
  | .login username password =>
    (match login secret now db username password with
     | .ok t => (.ok (.token t), db)
     | .error e => (.error e, db))
  | .me => withAuth secret now db auth (fun u =>
      (.ok (.user u.id u.username [u.role]), db))
  | .getCategories => withAuth secret now db auth (fun _ =>
      (.ok (.categories db.categories), db))
  | .addCategory body => withAuth secret now db auth (fun _ =>
      let r := add_category db body
      (r.1.map .category, r.2))
  | .updateCategory i body => withAuth secret now db auth (fun _ =>
      let r := update_category db i body
      (r.1.map .category, r.2))
  | .deleteCategory i => withAuth secret now db auth (fun _ =>
      let r := delete_category db i
      (r.1.map (fun _ => .emptyObj), r.2))
  | .getMenuItems => withAuth secret now db auth (fun _ =>
      (.ok (.menuItems db.items), db))
  | .addMenuItem body => withAuth secret now db auth (fun _ =>
      let r := add_menu_item db body
      (r.1.map .menuItem, r.2))
  | .updateMenuItem i body => withAuth secret now db auth (fun _ =>
      let r := update_menu_item db i body
      (r.1.map .menuItem, r.2))
  | .deleteMenuItem i => withAuth secret now db auth (fun _ =>
      let r := delete_menu_item db i
      (r.1.map (fun _ => .emptyObj), r.2))
  | .blockMenuItem i avail => withAuth secret now db auth (fun _ =>
      let r := block_menu_item db i avail
      (r.1.map .availability, r.2))
  | .getOrders status date_from date_to => withAuth secret now db auth (fun _ =>
      (.ok (.orders (get_orders db status date_from date_to)), db))
  | .getOrderDetails oid => withAuth secret now db auth (fun _ =>
      ((get_order_details db oid).map .orderDetails, db))
  | .ordersDaily date => withAuth secret now db auth (fun _ =>
      (.ok (.terminalStats (orders_daily db date today)), db))
  | .topMenuItems date_from date_to => withAuth secret now db auth (fun _ =>
      (.ok (.topItems (top_menu_items db date_from date_to)), db))
  | .testDb => (.ok .dbOk, db)
  | .helloDebug => (.ok (.msg "hello from new code"), db)
  | .debugSecret => (.ok (.secretValue secret), db)

/-! ### Sample data used by witnesses -/

def wUser : ManagerUser := ⟨1, "alice", "pw", "manager"⟩

def wDb : Db := ⟨[wUser], [], [], [], [], []⟩

def wTok : Token := ⟨some 1, "manager", 43200, "s"⟩

/-! ### Menu-management properties -/

/-- A create body whose `category_id` references no existing category. -/
def wDanglingBody : MenuItemBody :=
  { id := none, category_id := some 99, name_pl := some "Burger",
    name_en := some "Burger", price_cents := some 1500,
    image_url := none, is_available := none }

/-- A store with one category and one item, for the update witness. -/
def wCat : MenuCategory := ⟨1, "Zupy", "Soups", none⟩

def wItemRow : MenuItem := ⟨1, 1, "Rosol", "Broth", 1200, none, true⟩

def wDb2 : Db := ⟨[wUser], [wCat], [wItemRow], [], [], []⟩

def wCatPatch : MenuCategoryBody := ⟨none, some "Zupy dnia", none, none⟩

def wItemPatch : MenuItemBody :=
  ⟨none, none, none, none, some 1300, none, none⟩

/-- A store holding one order with two line items and three event-log rows. -/
def wOrder : Order := ⟨7, 42, "ready", "takeaway", "2026-02-01 12:00:00", none, "pl"⟩

def wMi1 : MenuItem := ⟨1, 1, "Kawa", "Coffee", 800, none, true⟩

def wMi2 : MenuItem := ⟨2, 1, "Herbata", "Tea", 700, none, true⟩

def wDb3 : Db :=
  ⟨[wUser], [wCat], [wMi1, wMi2], [wOrder],
   [⟨1, 7, 1, 2⟩, ⟨2, 7, 2, 1⟩],
   [⟨1, 7, "created", "T1", "2026-02-01 12:00:00", "new"⟩,
    ⟨2, 7, "accepted", "T1", "2026-02-01 12:05:00", "accepted"⟩,
    ⟨3, 7, "ready", "T2", "2026-02-01 12:15:00", "ready"⟩]⟩

/-! ### Order listing -/

/-- A store with a single order whose status is "ready". -/
def wOrderReady : Order := ⟨1, 10, "ready", "dine-in", "2026-01-01 10:00:00", none, "pl"⟩

def wDbO : Db := ⟨[wUser], [], [], [wOrderReady], [], []⟩

/-! ### Top-selling items -/

/-- Claim-side reading of the optional inclusive range filter (each bound
applies only when truthy-supplied, as the handler gates it). -/
def inRangeB (date_from date_to : Option String) (ts : String) : Bool :=
  (match date_from with
   | some s => if s ≠ "" then strLe s ts else true
   | none => true) &&
  (match date_to with
   | some s => if s ≠ "" then strLe ts s else true
   | none => true)

/-- Claim-side per-menu-item aggregate: the sum of `OrderItem.quantity` over
the line items referencing menu item `i` whose parent order's `created_at`
lies in the range. -/
def claimSold (db : Db) (date_from date_to : Option String) (i : Nat) : Int :=
  (((db.order_items.filter (fun oi => oi.menu_item_id == i)).filter (fun oi =>
      (db.orders.filter (fun o => o.id == oi.order_id)).any
        (fun o => inRangeB date_from date_to o.created_at))).map
    (fun oi => oi.quantity)).sum

/-- A store with items A (5 sold), B (9 sold), C (2 sold) in range. -/
def wMiA : MenuItem := ⟨1, 1, "A", "A", 100, none, true⟩

def wMiB : MenuItem := ⟨2, 1, "B", "B", 100, none, true⟩

def wMiC : MenuItem := ⟨3, 1, "C", "C", 100, none, true⟩

def wOrderT : Order := ⟨1, 1, "done", "takeaway", "2026-01-02 09:00:00", none, "pl"⟩

def wDbT : Db := ⟨[wUser], [wCat], [wMiA, wMiB, wMiC], [wOrderT],
  [⟨1, 1, 1, 5⟩, ⟨2, 1, 2, 9⟩, ⟨3, 1, 3, 2⟩], []⟩

/-- In a table whose `id` column is (primary-key) duplicate-free, looking a
row up by the id of a member returns that member. -/
theorem find?_by_id_of_nodup {l : List ManagerUser} {u : ManagerUser}
    (hu : u ∈ l) (hn : (l.map (fun v => v.id)).Nodup) :
    l.find? (fun v => v.id == u.id) = some u := by
  induction l with
  | nil => cases hu
  | cons v t ih =>
    simp only [List.map_cons, List.nodup_cons] at hn
    rcases List.mem_cons.mp hu with h | h
    · subst h
      exact List.find?_cons_of_pos _ (by simp)
    · have hne : v.id ≠ u.id := by
        intro he
        exact hn.1 (he ▸ List.mem_map_of_mem (fun w => w.id) h)
      rw [List.find?_cons_of_neg _ (by simpa using hne)]
      exact ih h hn.2

/-! ### Authentication properties -/

/-- C1: for every stored `ManagerUser` and valid credential pair, `login`
followed by `get_current_user` (resolve) on the returned token — before its
expiry and over a store with primary-key-unique user ids — yields exactly the
user that was authenticated, whose id the token carries in its "sub" claim. -/
theorem login_then_resolve_same_user
    (secret : String) (now now' : Nat) (db : Db) (username password : String)
    (u : ManagerUser) (tok : Token)
    (hu : db.users.find? (fun v => v.username == username) = some u)
    (hlogin : login secret now db username password = .ok tok)
    (hfresh : now' ≤ tok.exp)
    (hids : (db.users.map (fun v => v.id)).Nodup) :
    get_current_user secret now' db tok = .ok u ∧ tok.sub = some u.id := by
  have hlog : (if u.password_hash = password then
        Except.ok (create_access_token secret now (some u.id) u.role)
      else (.error ⟨400, "Invalid credentials"⟩ : Except HErr Token)) = .ok tok := by
    rw [login, hu] at hlogin
    exact hlogin
  by_cases hp : u.password_hash = password
  · rw [if_pos hp] at hlog
    injection hlog with htok
    subst htok
    have hfind : db.users.find? (fun v => v.id == u.id) = some u :=
      find?_by_id_of_nodup (List.mem_of_find?_eq_some hu) hids
    refine ⟨?_, rfl⟩
    rw [get_current_user, jwt_decode, if_pos ⟨rfl, hfresh⟩]
    simp [create_access_token, hfind]
  · rw [if_neg hp] at hlog
    exact absurd hlog (by simp)

theorem login_then_resolve_same_user_witness :
    get_current_user "s" 1000 wDb wTok = .ok wUser ∧ wTok.sub = some wUser.id :=
  login_then_resolve_same_user "s" 0 1000 wDb "alice" "pw" wUser wTok
    (by decide) (by rfl) (by decide) (by decide)

/-- C3: whenever the username resolves to no stored user, or to a user whose
stored credential differs from the supplied password, `login` fails — and
both failure causes produce the identical error value
`HTTPException(400, "Invalid credentials")`, so they are indistinguishable
to the caller. -/
theorem login_failure_uniform
    (secret : String) (now : Nat) (db : Db) (username password : String)
    (h : db.users.find? (fun v => v.username == username) = none ∨
         ∃ u, db.users.find? (fun v => v.username == username) = some u ∧
              u.password_hash ≠ password) :
    login secret now db username password = .error ⟨400, "Invalid credentials"⟩ := by
  rcases h with h | ⟨u, hu, hp⟩
  · rw [login, h]
  · rw [login, hu]
    exact if_neg hp

theorem login_failure_uniform_witness :
    login "s" 0 wDb "alice" "wrong" = .error ⟨400, "Invalid credentials"⟩ :=
  login_failure_uniform "s" 0 wDb "alice" "wrong"
    (Or.inr ⟨wUser, by decide, by decide⟩)

/-- C4: a token whose encoded expiry has elapsed at the moment of the call
fails resolution with Unauthorized even when its signature is valid (it was
signed with the verifier's secret); no user is returned. -/
theorem expired_token_unauthorized
    (secret : String) (now : Nat) (db : Db) (t : Token)
    (_hsig : t.sig = secret) (hexp : t.exp < now) :
    get_current_user secret now db t = .error ⟨401, "Invalid token"⟩ := by
  rw [get_current_user, jwt_decode, if_neg]
  rintro ⟨-, hle⟩
  omega

theorem expired_token_unauthorized_witness :
    get_current_user "s" 50000 wDb wTok = .error ⟨401, "Invalid token"⟩ :=
  expired_token_unauthorized "s" 50000 wDb wTok (by decide) (by decide)

/-! ### Authentication gating of the API surface -/

/-- Every failure of `get_current_user` carries status 401 with detail
"Invalid token" (the bare `except` re-raises every in-`try` failure as
this one error). -/
theorem get_current_user_error_status (secret : String) (now : Nat) (db : Db)
    (t : Token) (e : HErr) (h : get_current_user secret now db t = .error e) :
    e = ⟨401, "Invalid token"⟩ := by
  rw [get_current_user] at h
  split at h
  · injection h with h
    exact h.symm
  · split at h
    · injection h with h
      exact h.symm
    · split at h
      · injection h with h
        exact h.symm
      · exact absurd h (by simp)

/-- When the bearer token is missing or does not resolve, the
`Depends(get_current_user)` guard answers 401 and the wrapped business
handler never runs, leaving the store unchanged. -/
theorem withAuth_unauth (secret : String) (now : Nat) (db : Db)
    (auth : Option Token) (k : ManagerUser → (Except HErr Resp) × Db)
    (hfail : ∀ t, auth = some t →
      ∃ e, get_current_user secret now db t = .error e) :
    ∃ e : HErr, e.status_code = 401 ∧
      withAuth secret now db auth k = (.error e, db) := by
  match auth with
  | none => exact ⟨⟨401, "Not authenticated"⟩, rfl, rfl⟩
  | some t =>
    obtain ⟨e, he⟩ := hfail t rfl
    obtain rfl : e = ⟨401, "Invalid token"⟩ :=
      get_current_user_error_status secret now db t e he
    refine ⟨⟨401, "Invalid token"⟩, rfl, ?_⟩
    rw [withAuth, he]

/-- C2 counterexample: `GET /hello-debug` answers without any bearer token,
yet it is neither the login route nor one of the spec's two unauthenticated
diagnostic endpoints (the DB-connectivity probe and the secret-revealing
endpoint) — so a third unauthenticated non-login route exists. -/
theorem hello_debug_unauthenticated :
    handle "s" 0 "2026-01-01" wDb none .helloDebug
      = (.ok (.msg "hello from new code"), wDb) ∧
    requiresAuth .helloDebug = false ∧
    Req.helloDebug ≠ Req.login "" "" ∧
    Req.helloDebug ≠ Req.testDb ∧
    Req.helloDebug ≠ Req.debugSecret :=
  ⟨rfl, rfl, by decide, by decide, by decide⟩

/-- C2 (amended): every request except login and the three unauthenticated
diagnostic routes (`/test-db`, `/hello-debug`, `/debug-secret`) passes
through `get_current_user` first: if the token is missing or fails to
resolve, the request answers 401 and the store is unchanged — no business
operation runs. -/
theorem business_requires_auth
    (secret : String) (now : Nat) (today : String) (db : Db)
    (auth : Option Token) (r : Req)
    (hbiz : requiresAuth r = true)
    (hfail : ∀ t, auth = some t →
      ∃ e, get_current_user secret now db t = .error e) :
    ∃ e : HErr, e.status_code = 401 ∧
      handle secret now today db auth r = (.error e, db) := by
  cases r with
  | login username password => simp [requiresAuth] at hbiz
  | testDb => simp [requiresAuth] at hbiz
  | helloDebug => simp [requiresAuth] at hbiz
  | debugSecret => simp [requiresAuth] at hbiz
  | me => exact withAuth_unauth secret now db auth _ hfail
  | getCategories => exact withAuth_unauth secret now db auth _ hfail
  | addCategory body => exact withAuth_unauth secret now db auth _ hfail
  | updateCategory i body => exact withAuth_unauth secret now db auth _ hfail
  | deleteCategory i => exact withAuth_unauth secret now db auth _ hfail
  | getMenuItems => exact withAuth_unauth secret now db auth _ hfail
  | addMenuItem body => exact withAuth_unauth secret now db auth _ hfail
  | updateMenuItem i body => exact withAuth_unauth secret now db auth _ hfail
  | deleteMenuItem i => exact withAuth_unauth secret now db auth _ hfail
  | blockMenuItem i avail => exact withAuth_unauth secret now db auth _ hfail
  | getOrders s f t => exact withAuth_unauth secret now db auth _ hfail
  | getOrderDetails oid => exact withAuth_unauth secret now db auth _ hfail
  | ordersDaily date => exact withAuth_unauth secret now db auth _ hfail
  | topMenuItems f t => exact withAuth_unauth secret now db auth _ hfail

theorem business_requires_auth_witness :
    ∃ e : HErr, e.status_code = 401 ∧
      handle "s" 0 "2026-01-01" wDb none .getCategories = (.error e, wDb) :=
  business_requires_auth "s" 0 "2026-01-01" wDb none .getCategories rfl
    (fun _ h => nomatch h)

/-! ### Empty-string query parameters -/

/-- C10: an empty-string `status`, `date_from` or `date_to` fails Python's
truthiness test exactly like an absent parameter, so `get_orders` treats
`""` and `None` identically; likewise `orders_daily` falls back to the
current date when `date` is `""`. -/
theorem empty_string_params_ignored (db : Db) :
    (∀ date_from date_to, get_orders db (some "") date_from date_to
        = get_orders db none date_from date_to) ∧
    (∀ status date_to, get_orders db status (some "") date_to
        = get_orders db status none date_to) ∧
    (∀ status date_from, get_orders db status date_from (some "")
        = get_orders db status date_from none) ∧
    (∀ today, orders_daily db (some "") today = orders_daily db none today) := by
  refine ⟨fun df dt => ?_, fun st dt => ?_, fun st df => ?_, fun today => ?_⟩ <;>
    simp [get_orders, orders_daily]

/-- C5 (the code lacks the required check): over a store with no categories at
all, the item-create handler accepts a body whose `category_id` is 99,
reports success, and inserts a `menu_item` row carrying the dangling
reference — no `ValidationFailed` rejection happens in the application
code. -/
theorem add_menu_item_inserts_dangling_reference :
    (add_menu_item wDb wDanglingBody).1
        = .ok ⟨1, 99, "Burger", "Burger", 1500, none, true⟩ ∧
    (⟨1, 99, "Burger", "Burger", 1500, none, true⟩ : MenuItem)
        ∈ (add_menu_item wDb wDanglingBody).2.items ∧
    ((add_menu_item wDb wDanglingBody).2.categories.all
        (fun c => !(c.id == 99))) = true :=
  ⟨rfl, by decide, rfl⟩

/-- Splitting view of an in-place update: the store decomposes into the rows
before the first filter match (all failing the filter), the matched row, and
the rows after it; only the matched row is rewritten. -/
theorem updateFirst_split {α : Type} (test : α → Bool) (f : α → α)
    (l : List α) (c : α) (h : l.find? test = some c) :
    ∃ pre post, l = pre ++ c :: post ∧ (∀ x ∈ pre, test x = false) ∧
      test c = true ∧ updateFirst test f l = pre ++ f c :: post := by
  induction l with
  | nil => simp [List.find?] at h
  | cons a t ih =>
    by_cases ha : test a
    · rw [List.find?_cons_of_pos _ ha] at h
      injection h with h
      subst h
      exact ⟨[], t, rfl, by simp, ha, by simp [updateFirst, ha]⟩
    · rw [List.find?_cons_of_neg _ ha] at h
      obtain ⟨pre, post, h1, h2, h3, h4⟩ := ih h
      refine ⟨a :: pre, post, by simp [h1], ?_, h3, ?_⟩
      · intro x hx
        rcases List.mem_cons.mp hx with rfl | hx
        · simpa using ha
        · exact h2 x hx
      · simp [updateFirst, ha, h4]

/-- C6: partial update of a category or item.  When no row has the requested
id, both update handlers answer 404 and leave the store untouched.  When a
row is found, the handler returns it with every supplied field overwritten
and every omitted field at its prior value, rewrites exactly that row in
the store, and leaves all other rows (and all other tables) unchanged. -/
theorem partial_update_frame (db : Db) (i : Nat)
    (pc : MenuCategoryBody) (pm : MenuItemBody) :
    (db.categories.find? (fun x => x.id == i) = none →
       update_category db i pc = (.error ⟨404, "Not Found"⟩, db)) ∧
    (∀ c, db.categories.find? (fun x => x.id == i) = some c →
       ∃ c' pre post,
         update_category db i pc
           = (.ok c', { db with categories := pre ++ c' :: post }) ∧
         db.categories = pre ++ c :: post ∧ (∀ x ∈ pre, x.id ≠ i) ∧
         c'.id = (match pc.id with | some v => v | none => c.id) ∧
         c'.name_pl = (match pc.name_pl with | some v => v | none => c.name_pl) ∧
         c'.name_en = (match pc.name_en with | some v => v | none => c.name_en) ∧
         c'.image_url = (match pc.image_url with | some v => v | none => c.image_url)) ∧
    (db.items.find? (fun x => x.id == i) = none →
       update_menu_item db i pm = (.error ⟨404, "Not Found"⟩, db)) ∧
    (∀ m, db.items.find? (fun x => x.id == i) = some m →
       ∃ m' pre post,
         update_menu_item db i pm
           = (.ok m', { db with items := pre ++ m' :: post }) ∧
         db.items = pre ++ m :: post ∧ (∀ x ∈ pre, x.id ≠ i) ∧
         m'.id = (match pm.id with | some v => v | none => m.id) ∧
         m'.category_id = (match pm.category_id with | some v => v | none => m.category_id) ∧
         m'.name_pl = (match pm.name_pl with | some v => v | none => m.name_pl) ∧
         m'.name_en = (match pm.name_en with | some v => v | none => m.name_en) ∧
         m'.price_cents = (match pm.price_cents with | some v => v | none => m.price_cents) ∧
         m'.image_url = (match pm.image_url with | some v => v | none => m.image_url) ∧
         m'.is_available = (match pm.is_available with | some v => v | none => m.is_available)) := by
  refine ⟨fun h => by rw [update_category, h], fun c hc => ?_,
          fun h => by rw [update_menu_item, h], fun m hm => ?_⟩
  · obtain ⟨pre, post, h1, h2, h3, h4⟩ :=
      updateFirst_split (fun x => x.id == i) (fun x => setCategoryFields x pc)
        db.categories c hc
    refine ⟨setCategoryFields c pc, pre, post, ?_, h1, ?_, ?_, ?_, ?_, ?_⟩
    · rw [update_category, hc, updateFirstCategory, h4]
    · intro x hx
      simpa using h2 x hx
    · cases hv : pc.id <;> simp [setCategoryFields, hv]
    · cases hv : pc.name_pl <;> simp [setCategoryFields, hv]
    · cases hv : pc.name_en <;> simp [setCategoryFields, hv]
    · cases hv : pc.image_url <;> simp [setCategoryFields, hv]
  · obtain ⟨pre, post, h1, h2, h3, h4⟩ :=
      updateFirst_split (fun x => x.id == i) (fun x => setItemFields x pm)
        db.items m hm
    refine ⟨setItemFields m pm, pre, post, ?_, h1, ?_, ?_, ?_, ?_, ?_, ?_, ?_, ?_⟩
    · rw [update_menu_item, hm, updateFirstItem, h4]
    · intro x hx
      simpa using h2 x hx
    · cases hv : pm.id <;> simp [setItemFields, hv]
    · cases hv : pm.category_id <;> simp [setItemFields, hv]
    · cases hv : pm.name_pl <;> simp [setItemFields, hv]
    · cases hv : pm.name_en <;> simp [setItemFields, hv]
    · cases hv : pm.price_cents <;> simp [setItemFields, hv]
    · cases hv : pm.image_url <;> simp [setItemFields, hv]
    · cases hv : pm.is_available <;> simp [setItemFields, hv]

theorem partial_update_frame_witness :
    ∃ c' pre post,
      update_category wDb2 1 wCatPatch
        = (.ok c', { wDb2 with categories := pre ++ c' :: post }) ∧
      wDb2.categories = pre ++ wCat :: post ∧ (∀ x ∈ pre, x.id ≠ 1) ∧
      c'.id = 1 ∧ c'.name_pl = "Zupy dnia" ∧ c'.name_en = "Soups" ∧
      c'.image_url = none :=
  (partial_update_frame wDb2 1 wCatPatch wItemPatch).2.1 wCat (by decide)

/-! ### Order details -/

/-- A `flatMap` each of whose inner lists is a singleton preserves length. -/
theorem length_flatMap_of_length_one {α β : Type} (l : List α) (g : α → List β)
    (h : ∀ x ∈ l, (g x).length = 1) : (l.flatMap g).length = l.length := by
  induction l with
  | nil => rfl
  | cons a t ih =>
    rw [List.flatMap_cons, List.length_append, h a (List.mem_cons_self a t),
        ih (fun x hx => h x (List.mem_cons_of_mem a hx)), List.length_cons,
        Nat.add_comm]

/-- C7: `GET /orders/{id}` answers 404 when no order has the id.  Otherwise —
over a store where every line item of the order references exactly one menu
item — it returns the order row itself together with exactly one view per
line item of the order, each carrying the referenced menu item's `name_pl`
resolved at query time, and exactly one view per event-log row of the
order. -/
theorem get_order_details_spec (db : Db) (oid : Nat) :
    (db.orders.find? (fun o => o.id == oid) = none →
       get_order_details db oid = .error ⟨404, "Not Found"⟩) ∧
    (∀ o, db.orders.find? (fun o => o.id == oid) = some o →
       (∀ oi ∈ db.order_items.filter (fun oi => oi.order_id == oid),
          (db.items.filter (fun mi => mi.id == oi.menu_item_id)).length = 1) →
       ∃ d, get_order_details db oid = .ok d ∧ d.order = o ∧
         d.items.length
           = (db.order_items.filter (fun oi => oi.order_id == oid)).length ∧
         (∀ oi ∈ db.order_items.filter (fun oi => oi.order_id == oid),
            ∃ mi ∈ db.items, mi.id = oi.menu_item_id ∧
              (⟨oi.id, oi.menu_item_id, mi.name_pl, oi.quantity⟩ : OrderItemView)
                ∈ d.items) ∧
         (∀ v ∈ d.items,
            ∃ oi ∈ db.order_items.filter (fun oi => oi.order_id == oid),
              ∃ mi ∈ db.items, mi.id = oi.menu_item_id ∧
                v = ⟨oi.id, oi.menu_item_id, mi.name_pl, oi.quantity⟩) ∧
         d.events.length
           = (db.events.filter (fun e => e.order_id == oid)).length ∧
         (∀ e ∈ db.events, e.order_id = oid → eventView e ∈ d.events) ∧
         (∀ v ∈ d.events, ∃ e ∈ db.events, e.order_id = oid ∧ v = eventView e)) := by
  constructor
  · intro h
    rw [get_order_details, h]
  · intro o ho hone
    refine ⟨_, by rw [get_order_details, ho], rfl, ?_, ?_, ?_, ?_, ?_, ?_⟩ <;>
      dsimp only
    · rw [List.length_map, orderJoinRows]
      exact length_flatMap_of_length_one _ _ (fun x hx => by simpa using hone x hx)
    · intro oi hoi
      obtain ⟨mi, hmi⟩ := List.length_eq_one.mp (hone oi hoi)
      have hmem : mi ∈ db.items.filter (fun x => x.id == oi.menu_item_id) := by
        rw [hmi]
        exact List.mem_cons_self _ _
      obtain ⟨hmi_items, hmi_id⟩ := List.mem_filter.mp hmem
      refine ⟨mi, hmi_items, by simpa using hmi_id, ?_⟩
      refine List.mem_map.mpr ⟨(oi, mi), ?_, rfl⟩
      rw [orderJoinRows]
      exact List.mem_flatMap_of_mem hoi (List.mem_map_of_mem _ hmem)
    · intro v hv
      obtain ⟨r, hr, hrv⟩ := List.mem_map.mp hv
      rw [orderJoinRows] at hr
      obtain ⟨oi, hoi, hr2⟩ := List.mem_flatMap.mp hr
      obtain ⟨mi, hmi, hrmi⟩ := List.mem_map.mp hr2
      obtain ⟨hmi_items, hmi_id⟩ := List.mem_filter.mp hmi
      subst hrmi
      exact ⟨oi, hoi, mi, hmi_items, by simpa using hmi_id, hrv.symm⟩
    · rw [List.length_map]
    · intro e he heq
      exact List.mem_map_of_mem _ (List.mem_filter.mpr ⟨he, by simpa using heq⟩)
    · intro v hv
      obtain ⟨e, hef, hev⟩ := List.mem_map.mp hv
      obtain ⟨he, heq⟩ := List.mem_filter.mp hef
      exact ⟨e, he, by simpa using heq, hev.symm⟩

theorem get_order_details_spec_witness :
    ∃ d, get_order_details wDb3 7 = .ok d ∧ d.order = wOrder ∧
      d.items.length = 2 ∧ d.events.length = 3 := by
  obtain ⟨d, h1, h2, h3, -, -, h6, -, -⟩ :=
    (get_order_details_spec wDb3 7).2 wOrder (by decide) (by decide)
  exact ⟨d, h1, h2, h3.trans (by decide), h6.trans (by decide)⟩

/-- C8 counterexample: with `status` supplied as the empty string, the status
filter is skipped (Python truthiness), so an order whose status is "ready" —
not equal to the supplied `""` — is returned. -/
theorem get_orders_empty_status_not_filtered :
    get_orders wDbO (some "") none none = [wOrderReady] ∧
    wOrderReady.status ≠ "" :=
  ⟨rfl, by decide⟩

/-- C8 (amended): `get_orders` returns exactly the stored orders passing
every *truthy-supplied* (present and non-empty) filter: an exact,
case-sensitive match on status, and an inclusive range on `created_at`. -/
theorem get_orders_filter_semantics
    (db : Db) (status date_from date_to : Option String) :
    (∀ o ∈ get_orders db status date_from date_to,
       o ∈ db.orders ∧
       (∀ s, status = some s → s ≠ "" → o.status = s) ∧
       (∀ f, date_from = some f → f ≠ "" → strLe f o.created_at = true) ∧
       (∀ t, date_to = some t → t ≠ "" → strLe o.created_at t = true)) ∧
    (∀ o ∈ db.orders,
       (∀ s, status = some s → s ≠ "" → o.status = s) →
       (∀ f, date_from = some f → f ≠ "" → strLe f o.created_at = true) →
       (∀ t, date_to = some t → t ≠ "" → strLe o.created_at t = true) →
       o ∈ get_orders db status date_from date_to) := by
  have key : ∀ o, o ∈ get_orders db status date_from date_to ↔
      (o ∈ db.orders ∧
       (∀ s, status = some s → s ≠ "" → o.status = s) ∧
       (∀ f, date_from = some f → f ≠ "" → strLe f o.created_at = true) ∧
       (∀ t, date_to = some t → t ≠ "" → strLe o.created_at t = true)) := by
    intro o
    rcases status with - | s <;> rcases date_from with - | f <;>
      rcases date_to with - | t <;>
      simp only [get_orders] <;> (try split_ifs) <;>
      simp_all [List.mem_filter, and_assoc, and_comm, and_left_comm]
  exact ⟨fun o ho => (key o).mp ho,
         fun o ho h1 h2 h3 => (key o).mpr ⟨ho, h1, h2, h3⟩⟩

theorem get_orders_filter_semantics_witness :
    wOrderReady ∈ get_orders wDbO (some "ready") none none :=
  (get_orders_filter_semantics wDbO (some "ready") none none).2 wOrderReady
    (by decide) (fun s hs _ => by cases hs; rfl)
    (fun f hf => nomatch hf) (fun t ht => nomatch ht)

/-- The handler's two sequential truthy-gated range filters coincide with one
filter by the claim-side range test. -/
theorem rangeRowsFrom_eq_filter (rows : List (MenuItem × OrderItem × Order))
    (date_from date_to : Option String) :
    rangeRowsFrom rows date_from date_to
      = rows.filter (fun r => inRangeB date_from date_to r.2.2.created_at) := by
  rcases date_from with - | f <;> rcases date_to with - | t
  · simp [rangeRowsFrom, inRangeB]
  · by_cases ht : t = "" <;> simp [rangeRowsFrom, inRangeB, ht]
  · by_cases hf : f = "" <;> simp [rangeRowsFrom, inRangeB, hf]
  · by_cases hf : f = "" <;> by_cases ht : t = "" <;>
      simp [rangeRowsFrom, inRangeB, hf, ht, List.filter_filter, Bool.and_comm]

/-- `filter` distributes over `flatMap`. -/
theorem filter_flatMap {α β : Type} (l : List α) (g : α → List β) (p : β → Bool) :
    (l.flatMap g).filter p = l.flatMap (fun a => (g a).filter p) := by
  induction l with
  | nil => rfl
  | cons a t ih => simp [List.flatMap_cons, List.filter_append, ih]

/-- Summing a mapped `flatMap` is summing the per-element partial sums. -/
theorem sum_map_flatMap {α β : Type} (l : List α) (g : α → List β) (f : β → Int) :
    ((l.flatMap g).map f).sum = (l.map (fun a => ((g a).map f).sum)).sum := by
  induction l with
  | nil => rfl
  | cons a t ih => simp [List.flatMap_cons, ih]

/-- A filtered-map sum over a list is the sum of the guarded terms. -/
theorem sum_map_filter_eq_sum_ite {α : Type} (l : List α) (p : α → Bool)
    (f : α → Int) :
    ((l.filter p).map f).sum = (l.map (fun a => if p a then f a else 0)).sum := by
  induction l with
  | nil => rfl
  | cons a t ih => by_cases hp : p a <;> simp [List.filter_cons, hp, ih]

/-- Under referential integrity, one line item contributes exactly one join
row: its unique menu item paired with its unique parent order. -/
theorem salesRowsOf_eq_singleton (db : Db) (oi : OrderItem)
    (h1 : (db.items.filter (fun mi => mi.id == oi.menu_item_id)).length = 1)
    (h2 : (db.orders.filter (fun o => o.id == oi.order_id)).length = 1) :
    ∃ mi o, db.items.filter (fun mi => mi.id == oi.menu_item_id) = [mi] ∧
      db.orders.filter (fun o => o.id == oi.order_id) = [o] ∧
      salesRowsOf db oi = [(mi, oi, o)] := by
  obtain ⟨mi, hmi⟩ := List.length_eq_one.mp h1
  obtain ⟨o, ho⟩ := List.length_eq_one.mp h2
  exact ⟨mi, o, hmi, ho, by simp [salesRowsOf, hmi, ho]⟩

/-- Two rows of a table whose `id` column is duplicate-free agree whenever
their ids do. -/
theorem menu_item_eq_of_id_eq {l : List MenuItem}
    (hn : (l.map (fun m => m.id)).Nodup) {a b : MenuItem}
    (ha : a ∈ l) (hb : b ∈ l) (hid : a.id = b.id) : a = b :=
  List.inj_on_of_nodup_map hn ha hb hid

/-- Anything accumulated by the group-key fold came from the accumulator or
from a row of the list. -/
theorem mem_foldl_keys {α κ : Type} [BEq κ] [LawfulBEq κ] (key : α → κ)
    (l : List α) (acc : List κ) (k : κ)
    (h : k ∈ l.foldl
      (fun acc r => if key r ∈ acc then acc else acc ++ [key r]) acc) :
    k ∈ acc ∨ ∃ r ∈ l, key r = k := by
  induction l generalizing acc with
  | nil => exact Or.inl h
  | cons a t ih =>
    rw [List.foldl_cons] at h
    rcases ih _ h with hin | ⟨r, hr, hk⟩
    · by_cases hmem : key a ∈ acc
      · rw [if_pos hmem] at hin
        exact Or.inl hin
      · rw [if_neg hmem] at hin
        rcases List.mem_append.mp hin with h1 | h1
        · exact Or.inl h1
        · exact Or.inr ⟨a, List.mem_cons_self a t, (List.mem_singleton.mp h1).symm⟩
    · exact Or.inr ⟨r, List.mem_cons_of_mem a hr, hk⟩

/-- The group-key fold never drops what is already accumulated. -/
theorem foldl_keys_acc_mono {α κ : Type} [BEq κ] [LawfulBEq κ] (key : α → κ)
    (l : List α) (acc : List κ) (k : κ) (hk : k ∈ acc) :
    k ∈ l.foldl (fun acc r => if key r ∈ acc then acc else acc ++ [key r]) acc := by
  induction l generalizing acc with
  | nil => exact hk
  | cons a t ih =>
    rw [List.foldl_cons]
    apply ih
    split_ifs with h
    · exact hk
    · exact List.mem_append.mpr (Or.inl hk)

/-- Every row's key is accumulated by the group-key fold. -/
theorem key_mem_foldl_keys {α κ : Type} [BEq κ] [LawfulBEq κ] (key : α → κ)
    (l : List α) (acc : List κ) (r : α) (hr : r ∈ l) :
    key r ∈ l.foldl
      (fun acc x => if key x ∈ acc then acc else acc ++ [key x]) acc := by
  induction l generalizing acc with
  | nil => cases hr
  | cons a t ih =>
    rw [List.foldl_cons]
    rcases List.mem_cons.mp hr with rfl | hr
    · refine foldl_keys_acc_mono key t _ _ ?_
      split_ifs with h
      · exact h
      · exact List.mem_append.mpr (Or.inr (List.mem_singleton.mpr rfl))
    · exact ih _ hr

/-- The first component of a join row is a stored menu item. -/
theorem mem_salesJoinRows_fst (db : Db) (r : MenuItem × OrderItem × Order)
    (h : r ∈ salesJoinRows db) : r.1 ∈ db.items := by
  rw [salesJoinRows] at h
  obtain ⟨oi, hoi, hr⟩ := List.mem_flatMap.mp h
  rw [salesRowsOf] at hr
  obtain ⟨mi, hmi, hr2⟩ := List.mem_flatMap.mp hr
  obtain ⟨o, ho, rfl⟩ := List.mem_map.mp hr2
  exact (List.mem_filter.mp hmi).1

/-- Under referential integrity (each line item references exactly one menu
item and one order) and primary-key-unique menu-item ids, the handler's
per-group sum over the join equals the claim-side per-menu-item sum. -/
theorem topAgg_sold_eq_claimSold (db : Db) (date_from date_to : Option String)
    (i : Nat) (n : String)
    (hmi : ∀ oi ∈ db.order_items,
      (db.items.filter (fun mi => mi.id == oi.menu_item_id)).length = 1)
    (hord : ∀ oi ∈ db.order_items,
      (db.orders.filter (fun o => o.id == oi.order_id)).length = 1)
    (hids : (db.items.map (fun m => m.id)).Nodup)
    (hkey : ∃ mi ∈ db.items, mi.id = i ∧ mi.name_pl = n) :
    (((topRows db date_from date_to).filter
        (fun r => r.1.id == i && r.1.name_pl == n)).map
      (fun r => r.2.1.quantity)).sum = claimSold db date_from date_to i := by
  obtain ⟨mi0, hmi0_mem, hmi0_id, hmi0_name⟩ := hkey
  rw [topRows, rangeRowsFrom_eq_filter, List.filter_filter, salesJoinRows,
      filter_flatMap, sum_map_flatMap, claimSold, List.filter_filter,
      sum_map_filter_eq_sum_ite]
  refine congrArg List.sum (List.map_congr_left ?_)
  intro oi hoi
  obtain ⟨mi, o, hfmi, hfo, hrows⟩ :=
    salesRowsOf_eq_singleton db oi (hmi oi hoi) (hord oi hoi)
  have hmf : mi ∈ db.items.filter (fun x => x.id == oi.menu_item_id) := by
    rw [hfmi]
    exact List.mem_singleton.mpr rfl
  obtain ⟨hmi_items, hmi_idb⟩ := List.mem_filter.mp hmf
  have hmi_id : mi.id = oi.menu_item_id := by simpa using hmi_idb
  have hany : (db.orders.filter (fun x => x.id == oi.order_id)).any
      (fun x => inRangeB date_from date_to x.created_at)
      = inRangeB date_from date_to o.created_at := by
    rw [hfo]
    simp
  rw [hrows, hany]
  by_cases hik : oi.menu_item_id = i
  · have hmi_eq : mi = mi0 :=
      menu_item_eq_of_id_eq hids hmi_items hmi0_mem (by rw [hmi_id, hik, hmi0_id])
    have hname : mi.name_pl = n := by rw [hmi_eq, hmi0_name]
    have hidi : mi.id = i := by rw [hmi_id, hik]
    by_cases hr : inRangeB date_from date_to o.created_at
    · simp [List.filter_cons, hidi, hname, hik, hr]
    · simp [List.filter_cons, hidi, hname, hik, hr]
  · have : mi.id ≠ i := by rw [hmi_id]; exact hik
    simp [List.filter_cons, this, hik]

/-- C9: over a store satisfying referential integrity (each line item
references exactly one menu item and one order) with primary-key-unique
menu-item ids, `top_menu_items` returns at most 10 entries, sorted by summed
quantity descending, each entry being a stored menu item with its claim-side
per-item quantity sum over orders in the range; and every menu item with a
sale in the range either appears or was cut by the 10-entry limit in favour
of entries with sums at least as large. -/
theorem top_menu_items_spec (db : Db) (date_from date_to : Option String)
    (hmi : ∀ oi ∈ db.order_items,
      (db.items.filter (fun mi => mi.id == oi.menu_item_id)).length = 1)
    (hord : ∀ oi ∈ db.order_items,
      (db.orders.filter (fun o => o.id == oi.order_id)).length = 1)
    (hids : (db.items.map (fun m => m.id)).Nodup) :
    (top_menu_items db date_from date_to).length ≤ 10 ∧
    (top_menu_items db date_from date_to).Pairwise
      (fun a b => b.sold_count ≤ a.sold_count) ∧
    (∀ e ∈ top_menu_items db date_from date_to,
       (∃ mi ∈ db.items, mi.id = e.menu_item_id ∧ mi.name_pl = e.name) ∧
       e.sold_count = claimSold db date_from date_to e.menu_item_id) ∧
    (∀ row ∈ topRows db date_from date_to,
       (∃ e ∈ top_menu_items db date_from date_to, e.menu_item_id = row.1.id) ∨
       ((top_menu_items db date_from date_to).length = 10 ∧
        ∀ e ∈ top_menu_items db date_from date_to,
          claimSold db date_from date_to row.1.id ≤ e.sold_count)) := by
  have hsorted : ((topAgg (topRows db date_from date_to)).insertionSort topLe).Pairwise topLe :=
    List.sorted_insertionSort topLe _
  have hkeyprop : ∀ k ∈ topKeys (topRows db date_from date_to),
      ∃ mi ∈ db.items, mi.id = k.1 ∧ mi.name_pl = k.2 := by
    intro k hk
    rw [topKeys] at hk
    rcases mem_foldl_keys (fun r : MenuItem × OrderItem × Order =>
        (r.1.id, r.1.name_pl)) _ [] k hk with h | ⟨r, hr, hkey⟩
    · cases h
    · have hrj : r ∈ salesJoinRows db := by
        rw [topRows, rangeRowsFrom_eq_filter] at hr
        exact (List.mem_filter.mp hr).1
      exact ⟨r.1, mem_salesJoinRows_fst db r hrj,
        congrArg Prod.fst hkey, congrArg Prod.snd hkey⟩
  have haggmem : ∀ e ∈ topAgg (topRows db date_from date_to),
      (∃ mi ∈ db.items, mi.id = e.menu_item_id ∧ mi.name_pl = e.name) ∧
      e.sold_count = claimSold db date_from date_to e.menu_item_id := by
    intro e he
    rw [topAgg] at he
    obtain ⟨k, hk, rfl⟩ := List.mem_map.mp he
    exact ⟨hkeyprop k hk,
      topAgg_sold_eq_claimSold db date_from date_to k.1 k.2 hmi hord hids
        (hkeyprop k hk)⟩
  refine ⟨?_, ?_, ?_, ?_⟩
  · rw [top_menu_items, List.length_take]
    exact Nat.min_le_left _ _
  · exact List.Pairwise.sublist (List.take_sublist 10 _) hsorted
  · intro e he
    have hagg : e ∈ topAgg (topRows db date_from date_to) := by
      have h1 : e ∈ (topAgg (topRows db date_from date_to)).insertionSort topLe :=
        List.mem_of_mem_take he
      exact (List.mem_insertionSort topLe).mp h1
    exact haggmem e hagg
  · intro row hrow
    have hk : (row.1.id, row.1.name_pl) ∈ topKeys (topRows db date_from date_to) := by
      rw [topKeys]
      exact key_mem_foldl_keys (fun r : MenuItem × OrderItem × Order =>
        (r.1.id, r.1.name_pl)) _ [] row hrow
    set E : TopItemEntry :=
      { menu_item_id := row.1.id, name := row.1.name_pl,
        sold_count := (((topRows db date_from date_to).filter
          (fun r => r.1.id == row.1.id && r.1.name_pl == row.1.name_pl)).map
          (fun r => r.2.1.quantity)).sum } with hEdef
    have hE : E ∈ topAgg (topRows db date_from date_to) := by
      rw [topAgg]
      exact List.mem_map_of_mem _ hk
    have hEs : E ∈ (topAgg (topRows db date_from date_to)).insertionSort topLe :=
      (List.mem_insertionSort topLe).mpr hE
    have hrj : row ∈ salesJoinRows db := by
      rw [topRows, rangeRowsFrom_eq_filter] at hrow
      exact (List.mem_filter.mp hrow).1
    have hEsold : E.sold_count = claimSold db date_from date_to row.1.id :=
      topAgg_sold_eq_claimSold db date_from date_to row.1.id row.1.name_pl
        hmi hord hids ⟨row.1, mem_salesJoinRows_fst db row hrj, rfl, rfl⟩
    rw [← List.take_append_drop 10
      ((topAgg (topRows db date_from date_to)).insertionSort topLe)] at hEs
    rcases List.mem_append.mp hEs with htake | hdrop
    · exact Or.inl ⟨E, htake, rfl⟩
    · right
      have hlen : 10 < ((topAgg (topRows db date_from date_to)).insertionSort topLe).length := by
        by_contra hle
        push_neg at hle
        rw [List.drop_eq_nil_of_le hle] at hdrop
        cases hdrop
      constructor
      · rw [top_menu_items, List.length_take]
        exact Nat.min_eq_left (Nat.le_of_lt hlen)
      · intro e he
        have hsplit := hsorted
        rw [← List.take_append_drop 10
          ((topAgg (topRows db date_from date_to)).insertionSort topLe)] at hsplit
        have hcross := (List.pairwise_append.mp hsplit).2.2
        have hle : topLe e E := hcross e he E hdrop
        exact hEsold ▸ hle

theorem top_menu_items_spec_witness :
    top_menu_items wDbT (some "2026-01-01") (some "2026-01-03")
      = [⟨2, "B", 9⟩, ⟨1, "A", 5⟩, ⟨3, "C", 2⟩] ∧
    (top_menu_items wDbT (some "2026-01-01") (some "2026-01-03")).length ≤ 10 ∧
    (top_menu_items wDbT (some "2026-01-01") (some "2026-01-03")).Pairwise
      (fun a b => b.sold_count ≤ a.sold_count) :=
  ⟨by decide,
   (top_menu_items_spec wDbT (some "2026-01-01") (some "2026-01-03")
      (by decide) (by decide) (by decide)).1,
   (top_menu_items_spec wDbT (some "2026-01-01") (some "2026-01-03")
      (by decide) (by decide) (by decide)).2.1⟩

end RestMgr
